import Mathlib

/-!
Verification of the mem0 evaluation harness (`evaluation/` of the repository)
against its natural-language specification.

The Python sources embedded here:
  * `evaluation/src/longmemeval/add.py`      — `LongMemEvalMemoryAdder`
  * `evaluation/src/longmemeval/search.py`   — `LongMemEvalMemorySearch`
  * `evaluation/src/longmemeval/data_converter.py` — `LongMemEvalDataConverter`
  * `evaluation/src/memzero/add.py`          — `MemoryADD`
  * `evaluation/src/memzero/search.py`       — `MemorySearch`
  * `evaluation/evals.py`                    — `process_item`
  * `evaluation/generate_scores.py`          — `generate_scores`

External collaborators (the HTTP memory API, the OpenAI chat client, the
tiktoken tokenizer, the lexical/LLM scoring oracles, the wall clock) are
modelled as explicit function parameters or outcome oracles; everything the
Python code itself computes is translated into executable Lean definitions.
-/

namespace Mem0Eval

/-! ## Batch splitting

`add.py` (both adders) splits a message list into consecutive slices:

    for i in range(0, len(messages), self.batch_size):
        batch = messages[i:i + self.batch_size]
        message_batches.append(batch)

For `batch_size ≥ 1` the slice loop is the consecutive-chunks recursion below
(Python's `range` with step 0 raises, so the `bs = 0` branch is never taken by
the source; we return `[]` there only to make the function total). -/

def batchSplit (bs : Nat) : List α → List (List α)
  | [] => []
  | m :: rest =>
    if bs = 0 then []
    else (m :: rest).take bs :: batchSplit bs ((m :: rest).drop bs)
termination_by l => l.length
decreasing_by
  simp only [List.length_drop, List.length_cons]
  omega

theorem batchSplit_nil (bs : Nat) : batchSplit bs ([] : List α) = [] := by
  simp [batchSplit]

theorem batchSplit_cons (bs : Nat) (hbs : bs ≠ 0) (m : α) (rest : List α) :
    batchSplit bs (m :: rest) =
      (m :: rest).take bs :: batchSplit bs ((m :: rest).drop bs) := by
  rw [batchSplit]
  simp [hbs]

theorem batchSplit_flatten (bs : Nat) (hbs : 1 ≤ bs) :
    ∀ l : List α, (batchSplit bs l).flatten = l := by
  have H : ∀ n : Nat, ∀ l : List α, l.length ≤ n →
      (batchSplit bs l).flatten = l := by
    intro n
    induction n with
    | zero =>
      intro l hl
      have : l = [] := List.length_eq_zero.mp (Nat.le_zero.mp hl)
      subst this; simp [batchSplit]
    | succ n ih =>
      intro l hl
      cases l with
      | nil => simp [batchSplit]
      | cons m rest =>
        rw [batchSplit_cons bs (by omega) m rest]
        rw [List.flatten_cons]
        rw [ih ((m :: rest).drop bs)
          (by simp only [List.length_drop, List.length_cons] at *; omega)]
        exact List.take_append_drop bs (m :: rest)
  exact fun l => H l.length l (Nat.le_refl _)

theorem batchSplit_sizes (bs : Nat) :
    ∀ l : List α, ∀ b ∈ batchSplit bs l, b.length ≤ bs := by
  have H : ∀ n : Nat, ∀ l : List α, l.length ≤ n →
      ∀ b ∈ batchSplit bs l, b.length ≤ bs := by
    intro n
    induction n with
    | zero =>
      intro l hl
      have : l = [] := List.length_eq_zero.mp (Nat.le_zero.mp hl)
      subst this; simp [batchSplit]
    | succ n ih =>
      intro l hl
      cases l with
      | nil => simp [batchSplit]
      | cons m rest =>
        by_cases hbs : bs = 0
        · simp [batchSplit, hbs]
        · rw [batchSplit_cons bs hbs m rest]
          intro b hb
          rcases List.mem_cons.mp hb with h | h
          · subst h; exact List.length_take_le bs (m :: rest)
          · exact ih ((m :: rest).drop bs)
              (by simp only [List.length_drop, List.length_cons] at *; omega)
              b h
  exact fun l => H l.length l (Nat.le_refl _)

/-- C3: for every message list and every `batch_size ≥ 1`, concatenating, in
submission order, the batches produced by the adder's batch-splitting loop
reconstructs the original message list exactly (no loss, no duplication, no
reordering), and every batch has size at most `batch_size`. -/
theorem batch_split_reconstructs {α : Type} (bs : Nat) (hbs : 1 ≤ bs)
    (msgs : List α) :
    (batchSplit bs msgs).flatten = msgs ∧
      ∀ b ∈ batchSplit bs msgs, b.length ≤ bs :=
  ⟨batchSplit_flatten bs hbs msgs, batchSplit_sizes bs msgs⟩

/-- Witness for C3 at `batch_size = 2` on the 5-element list `[0,1,2,3,4]`. -/
theorem batch_split_reconstructs_witness :
    (batchSplit 2 [0, 1, 2, 3, 4]).flatten = [0, 1, 2, 3, 4] ∧
      ∀ b ∈ batchSplit 2 [0, 1, 2, 3, 4], b.length ≤ 2 :=
  batch_split_reconstructs 2 (by decide) [0, 1, 2, 3, 4]

/-! ## Memory adder: retry loop and per-conversation metrics

`longmemeval/add.py`. The HTTP POST of `_async_add_messages` is modelled by an
attempt oracle `attempt : Nat → Bool` telling whether the POST at a given
attempt index succeeds; each batch of a conversation gets its own oracle
`attempts batch_idx`. Wall-clock fields (`total_time_ms`, throughput) are
measurements of real time and are not embedded. -/

structure Message where
  role : String
  content : String
deriving Repr, DecidableEq

/-- `LongMemEvalMemoryAdder._count_tokens`: character count of all message
contents, floor-divided by 4. -/
def countTokensAdd (messages : List Message) : Nat :=
  (messages.map (fun m => m.content.length)).sum / 4

/-- Retry loop of `_async_add_messages` (`for attempt in range(retries)`): at
each attempt the POST either succeeds (return True) or raises; the exception
is caught, and at the last attempt the handler returns False instead of
re-raising. `i` is the current attempt index, the first argument counts the
attempts left. -/
def tryAttempts (attempt : Nat → Bool) : Nat → Nat → Bool
  | 0, _ => false
  | k + 1, i => if attempt i then true else tryAttempts attempt k (i + 1)

/-- `_async_add_messages`: returns (success flag, token count); never raises
for `retries ≥ 1` (the final except-branch returns `False`). -/
def asyncAddMessages (attempt : Nat → Bool) (retries : Nat)
    (msgs : List Message) : Bool × Nat :=
  (tryAttempts attempt retries 0, countTokensAdd msgs)

structure AddPhaseMetrics where
  messages_count : Nat
  batches_count : Nat
  successful_batches : Nat
  failed_batches : Nat
  total_tokens : Nat
deriving Repr, DecidableEq

/-- `add_conversation_async`: splits `msgs` into batches of `bs`, runs
`_async_add_messages` (3 retries, as at the call site) on every batch, awaits
every task, and counts successes and failures. Counting over `as_completed`
is order-insensitive, so it is modelled in submission order. -/
def addConversationAsync (attempts : Nat → Nat → Bool) (msgs : List Message)
    (bs : Nat) : AddPhaseMetrics :=
  let batches := batchSplit bs msgs
  let outcomes := batches.enum.map
    (fun p => asyncAddMessages (attempts p.1) 3 p.2)
  { messages_count := msgs.length
    batches_count := batches.length
    successful_batches := (outcomes.filter (fun o => o.1)).length
    failed_batches := (outcomes.filter (fun o => !o.1)).length
    total_tokens := ((outcomes.filter (fun o => o.1)).map (fun o => o.2)).sum }

theorem filter_split_length (p : α → Bool) (l : List α) :
    (l.filter p).length + (l.filter (fun a => !(p a))).length = l.length := by
  induction l with
  | nil => rfl
  | cons a l ih =>
    by_cases h : p a <;> simp [List.filter_cons, h] <;> omega

theorem tryAttempts_eq_true_iff (f : Nat → Bool) :
    ∀ k i, tryAttempts f k i = true ↔ ∃ j, j < k ∧ f (i + j) = true := by
  intro k
  induction k with
  | zero => intro i; simp [tryAttempts]
  | succ k ih =>
    intro i
    by_cases h : f i = true
    · simp only [tryAttempts, h, if_true, true_iff]
      exact ⟨0, Nat.succ_pos k, by simpa using h⟩
    · have h' : f i = false := by revert h; cases f i <;> simp
      simp only [tryAttempts, h', Bool.false_eq_true, if_false, ih (i + 1)]
      constructor
      · rintro ⟨j, hj, hfj⟩
        refine ⟨j + 1, by omega, ?_⟩
        rw [show i + (j + 1) = i + 1 + j by omega]
        exact hfj
      · rintro ⟨j, hj, hfj⟩
        cases j with
        | zero =>
          rw [Nat.add_zero, h'] at hfj
          simp at hfj
        | succ j =>
          refine ⟨j, by omega, ?_⟩
          rw [show i + 1 + j = i + (j + 1) by omega]
          exact hfj

/-- C2: every batch task yields a success or a failure (exhausting all 3
retries is counted as failed, not raised; any successful attempt within the 3
is counted as success), every batch is awaited and counted, and
`successful_batches + failed_batches = batches_count`, the number of batches
the message list was split into. -/
theorem add_conversation_metrics_consistent (attempts : Nat → Nat → Bool)
    (msgs : List Message) (bs : Nat) :
    (addConversationAsync attempts msgs bs).successful_batches +
        (addConversationAsync attempts msgs bs).failed_batches =
      (addConversationAsync attempts msgs bs).batches_count ∧
    (addConversationAsync attempts msgs bs).batches_count =
      (batchSplit bs msgs).length ∧
    (∀ bi, (∀ j, j < 3 → attempts bi j = false) →
      ∀ b : List Message, (asyncAddMessages (attempts bi) 3 b).1 = false) ∧
    (∀ bi j, j < 3 → attempts bi j = true →
      ∀ b : List Message, (asyncAddMessages (attempts bi) 3 b).1 = true) := by
  refine ⟨?_, rfl, ?_, ?_⟩
  · have h := filter_split_length (fun o : Bool × Nat => o.1)
      ((batchSplit bs msgs).enum.map
        (fun p => asyncAddMessages (attempts p.1) 3 p.2))
    simp only [List.length_map, List.enum_length] at h
    exact h
  · intro bi h b
    simp only [asyncAddMessages]
    cases hres : tryAttempts (attempts bi) 3 0 with
    | false => rfl
    | true =>
      obtain ⟨j, hj, hfj⟩ := (tryAttempts_eq_true_iff (attempts bi) 3 0).mp hres
      rw [Nat.zero_add] at hfj
      rw [h j hj] at hfj
      exact absurd hfj (by simp)
  · intro bi j hj hb b
    simp only [asyncAddMessages]
    exact (tryAttempts_eq_true_iff (attempts bi) 3 0).mpr
      ⟨j, hj, by rw [Nat.zero_add]; exact hb⟩

/-- Witness for C2: one message, batch size 1, every attempt failing. -/
theorem add_conversation_metrics_consistent_witness :
    ((addConversationAsync (fun _ _ => false) [⟨"user", "hello"⟩] 1).successful_batches +
        (addConversationAsync (fun _ _ => false) [⟨"user", "hello"⟩] 1).failed_batches =
      (addConversationAsync (fun _ _ => false) [⟨"user", "hello"⟩] 1).batches_count) ∧
    (asyncAddMessages (fun _ => false) 3 [⟨"user", "hello"⟩]).1 = false :=
  ⟨(add_conversation_metrics_consistent (fun _ _ => false) [⟨"user", "hello"⟩] 1).1,
   (add_conversation_metrics_consistent (fun _ _ => false) [⟨"user", "hello"⟩] 1).2.2.1
     0 (fun _ _ => rfl) [⟨"user", "hello"⟩]⟩

/-! ## Memory searcher: token counting and per-depth processing

`longmemeval/search.py`, `LongMemEvalMemorySearch`. The tiktoken tokenizer is
the function parameter `countTokens`; the Jinja template rendering and the
JSON dump of the memories are pure string constructions by external libraries
and enter only through the already-rendered `prompt` argument. Wall-clock
durations are measurements supplied by the environment, so the per-depth
oracle carries them as data. -/

structure Usage where
  prompt_tokens : Nat
  completion_tokens : Nat
  total_tokens : Nat
deriving Repr, DecidableEq

structure ChatResponse where
  content : String
  usage : Option Usage
deriving Repr, DecidableEq

structure TokenCounts where
  input_tokens : Nat
  output_tokens : Nat
  total_tokens : Nat
  estimated_input_tokens : Nat
  estimated_output_tokens : Nat
deriving Repr, DecidableEq

/-- System message of `_generate_response`. -/
def systemMessage : String :=
  "You are a helpful assistant that can answer questions based on conversation memories."

/-- Token bookkeeping of `_generate_response` on a completed chat call:
`input_tokens` is locally counted over system message and prompt before the
call, `output_tokens` over the stripped answer after it; if the response has
a `usage` object its numbers become the recorded counts, otherwise the local
estimates do; the local estimates are always recorded under the two
`estimated_*` keys. Returns `(answer, token_counts)`. -/
def generateResponse (countTokens : String → Nat) (prompt : String)
    (resp : ChatResponse) : String × TokenCounts :=
  let input_tokens := countTokens systemMessage + countTokens prompt
  let answer := resp.content.trim
  let output_tokens := countTokens answer
  match resp.usage with
  | some u =>
    (answer,
      { input_tokens := u.prompt_tokens
        output_tokens := u.completion_tokens
        total_tokens := u.total_tokens
        estimated_input_tokens := input_tokens
        estimated_output_tokens := output_tokens })
  | none =>
    (answer,
      { input_tokens := input_tokens
        output_tokens := output_tokens
        total_tokens := input_tokens + output_tokens
        estimated_input_tokens := input_tokens
        estimated_output_tokens := output_tokens })

/-- C1: if the provider response carries a usage object, the recorded
`input_tokens`, `output_tokens` and `total_tokens` equal exactly the
provider's `prompt_tokens`, `completion_tokens` and `total_tokens`; if it is
absent, the recorded counts equal the locally estimated counts; the local
estimates are always carried under the separate `estimated_*` keys. -/
theorem token_counts_policy (countTokens : String → Nat) (prompt : String)
    (resp : ChatResponse) :
    (∀ u, resp.usage = some u →
      (generateResponse countTokens prompt resp).2.input_tokens = u.prompt_tokens ∧
      (generateResponse countTokens prompt resp).2.output_tokens = u.completion_tokens ∧
      (generateResponse countTokens prompt resp).2.total_tokens = u.total_tokens) ∧
    (resp.usage = none →
      (generateResponse countTokens prompt resp).2.input_tokens =
        countTokens systemMessage + countTokens prompt ∧
      (generateResponse countTokens prompt resp).2.output_tokens =
        countTokens resp.content.trim ∧
      (generateResponse countTokens prompt resp).2.total_tokens =
        (countTokens systemMessage + countTokens prompt) +
          countTokens resp.content.trim) ∧
    (generateResponse countTokens prompt resp).2.estimated_input_tokens =
      countTokens systemMessage + countTokens prompt ∧
    (generateResponse countTokens prompt resp).2.estimated_output_tokens =
      countTokens resp.content.trim := by
  refine ⟨?_, ?_, ?_, ?_⟩
  · intro u hu
    simp [generateResponse, hu]
  · intro hu
    simp [generateResponse, hu]
  · cases hu : resp.usage <;> simp [generateResponse, hu]
  · cases hu : resp.usage <;> simp [generateResponse, hu]

/-- Witness for C1: both usage shapes at concrete inputs, token counting by
string length. -/
theorem token_counts_policy_witness :
    ((generateResponse String.length "pp" ⟨"ans", some ⟨7, 8, 15⟩⟩).2.input_tokens = 7 ∧
      (generateResponse String.length "pp" ⟨"ans", some ⟨7, 8, 15⟩⟩).2.output_tokens = 8 ∧
      (generateResponse String.length "pp" ⟨"ans", some ⟨7, 8, 15⟩⟩).2.total_tokens = 15) ∧
    ((generateResponse String.length "pp" ⟨"ans", none⟩).2.input_tokens =
        String.length systemMessage + String.length "pp" ∧
      (generateResponse String.length "pp" ⟨"ans", none⟩).2.output_tokens =
        String.length (String.trim "ans") ∧
      (generateResponse String.length "pp" ⟨"ans", none⟩).2.total_tokens =
        (String.length systemMessage + String.length "pp") +
          String.length (String.trim "ans")) :=
  ⟨(token_counts_policy String.length "pp" ⟨"ans", some ⟨7, 8, 15⟩⟩).1 ⟨7, 8, 15⟩ rfl,
   (token_counts_policy String.length "pp" ⟨"ans", none⟩).2.1 rfl⟩

/-! ## Memory searcher: per-depth loop of `search_and_respond`

Each requested `top_k` is processed independently: a fresh search call plus a
generation call, both wrapped in one try block. The pair of calls for one
depth is the oracle `oracle top_k`, yielding either their combined outcome or
the raised exception's message. -/

structure SearchOutcome (μ : Type) where
  memories : List μ
  search_time_ms : ℚ
  answer : String
  response_time_ms : ℚ
  token_counts : TokenCounts
deriving Repr, DecidableEq

structure DepthResult (μ : Type) where
  top_k : Nat
  error : Option String
  search_time_ms : ℚ
  response_time_ms : ℚ
  total_time_ms : ℚ
  retrieved_memories_count : Nat
  answer : String
  retrieved_memories : List μ
  token_counts : Option TokenCounts
deriving Repr, DecidableEq

/-- Loop body of `search_and_respond` for one `top_k`: on success a populated
result (the `error` key absent, modelled `none`; `token_counts` present); on
any exception an error record with zeroed timings, zero retrieved count,
empty answer, empty memories and empty token counts (`none`). -/
def processDepth (oracle : Nat → Except String (SearchOutcome μ))
    (top_k : Nat) : DepthResult μ :=
  match oracle top_k with
  | Except.ok o =>
    { top_k := top_k
      error := none
      search_time_ms := o.search_time_ms
      response_time_ms := o.response_time_ms
      total_time_ms := o.search_time_ms + o.response_time_ms
      retrieved_memories_count := o.memories.length
      answer := o.answer
      retrieved_memories := o.memories
      token_counts := some o.token_counts }
  | Except.error e =>
    { top_k := top_k
      error := some e
      search_time_ms := 0
      response_time_ms := 0
      total_time_ms := 0
      retrieved_memories_count := 0
      answer := ""
      retrieved_memories := []
      token_counts := none }

/-- `search_and_respond`: the loop appends exactly one result per requested
`top_k`, the except-branch appending the error record and continuing. -/
def searchAndRespond (oracle : Nat → Except String (SearchOutcome μ))
    (top_k_values : List Nat) : List (DepthResult μ) :=
  top_k_values.map (processDepth oracle)

theorem searchAndRespond_length (oracle : Nat → Except String (SearchOutcome μ))
    (ks : List Nat) : (searchAndRespond oracle ks).length = ks.length :=
  List.length_map ks (processDepth oracle)

/-- C5: exactly one result per requested depth, in input order; a depth whose
processing raises gets an error record with zeroed timings, zero retrieved
count and empty answer, and later depths are still processed (the result at
every position exists and depends only on that position's depth). -/
theorem search_and_respond_per_depth {μ : Type}
    (oracle : Nat → Except String (SearchOutcome μ)) (ks : List Nat) :
    (searchAndRespond oracle ks).length = ks.length ∧
    (∀ i : Fin ks.length,
      (searchAndRespond oracle ks).get
          ⟨i.val, by rw [searchAndRespond_length]; exact i.isLt⟩ =
        processDepth oracle (ks.get i)) ∧
    (∀ k e, oracle k = Except.error e →
      processDepth oracle k =
        { top_k := k, error := some e, search_time_ms := 0,
          response_time_ms := 0, total_time_ms := 0,
          retrieved_memories_count := 0, answer := "",
          retrieved_memories := [], token_counts := none }) ∧
    (∀ k o, oracle k = Except.ok o →
      (processDepth oracle k).error = none ∧
      (processDepth oracle k).answer = o.answer ∧
      (processDepth oracle k).retrieved_memories_count = o.memories.length) := by
  refine ⟨searchAndRespond_length oracle ks, ?_, ?_, ?_⟩
  · intro i
    simp [searchAndRespond, List.get_eq_getElem, List.getElem_map]
  · intro k e hk
    simp [processDepth, hk]
  · intro k o hk
    simp [processDepth, hk]

/-- Witness for C5: two depths, the first failing, the second succeeding. -/
theorem search_and_respond_per_depth_witness :
    (searchAndRespond
        (fun k => if k = 1 then Except.error "boom"
          else Except.ok (⟨["m"], 3, "ans", 4, ⟨1, 2, 3, 1, 2⟩⟩ : SearchOutcome String))
        [1, 5]).length = [1, 5].length ∧
    processDepth
        (fun k => if k = 1 then Except.error "boom"
          else Except.ok (⟨["m"], 3, "ans", 4, ⟨1, 2, 3, 1, 2⟩⟩ : SearchOutcome String))
        1 =
      { top_k := 1, error := some "boom", search_time_ms := 0,
        response_time_ms := 0, total_time_ms := 0,
        retrieved_memories_count := 0, answer := "",
        retrieved_memories := [], token_counts := none } :=
  ⟨(search_and_respond_per_depth
      (fun k => if k = 1 then Except.error "boom"
        else Except.ok (⟨["m"], 3, "ans", 4, ⟨1, 2, 3, 1, 2⟩⟩ : SearchOutcome String))
      [1, 5]).1,
   (search_and_respond_per_depth
      (fun k => if k = 1 then Except.error "boom"
        else Except.ok (⟨["m"], 3, "ans", 4, ⟨1, 2, 3, 1, 2⟩⟩ : SearchOutcome String))
      [1, 5]).2.2.1 1 "boom" rfl⟩

/-! ## Data converter

`longmemeval/data_converter.py`, `convert_conversation_to_mem0_format`. A raw
conversation is a JSON object; every field the converter reads is accessed
with `.get(key, default)`, so each is modelled as an `Option` with the
defaulting applied exactly where the source applies it. A turn is likewise a
JSON object read with `.get`. -/

structure Turn where
  role : Option String
  content : Option String
  has_answer : Option Bool
deriving Repr, DecidableEq

structure ConversationData where
  question_id : Option String
  question_type : Option String
  question_date : Option String
  question : Option String
  answer : Option String
  haystack_session_ids : Option (List String)
  answer_session_ids : Option (List String)
  haystack_sessions : Option (List (List Turn))
  haystack_dates : Option (List String)
deriving Repr, DecidableEq

structure MsgMeta where
  session_index : Nat
  session_date : String
  has_answer : Bool
  conversation_id : String
  turn_id : String
deriving Repr, DecidableEq

structure ConvMessage where
  role : String
  content : String
  metadata : MsgMeta
deriving Repr, DecidableEq

structure ConvMetadata where
  conversation_id : String
  question_id : String
  question_type : String
  question_date : String
  original_question : String
  ground_truth_answer : String
  haystack_session_ids : List String
  answer_session_ids : List String
  is_abstention : Bool
deriving Repr, DecidableEq

/-- Message built for one turn: `n` is `len(messages)` at append time, the
running count of messages already produced. -/
def mkConvMessage (cid : String) (sIdx : Nat) (sDate : String) (n : Nat)
    (t : Turn) : ConvMessage :=
  { role := t.role.getD "user"
    content := t.content.getD ""
    metadata :=
      { session_index := sIdx
        session_date := sDate
        has_answer := t.has_answer.getD false
        conversation_id := cid
        turn_id := cid ++ "_session" ++ toString sIdx ++ "_turn" ++ toString n } }

/-- Inner loop (`for turn in session`), threading the running message count. -/
def convertTurns (cid : String) (sIdx : Nat) (sDate : String) :
    Nat → List Turn → List ConvMessage
  | _, [] => []
  | n, t :: ts => mkConvMessage cid sIdx sDate n t ::
      convertTurns cid sIdx sDate (n + 1) ts

/-- Outer loop (`for session_idx, session in enumerate(haystack_sessions)`);
the session date is `haystack_dates[session_idx]` when in range, else `""`. -/
def convertSessionsFrom (cid : String) (dates : List String) :
    Nat → Nat → List (List Turn) → List ConvMessage
  | _, _, [] => []
  | sIdx, n, s :: ss =>
    convertTurns cid sIdx (dates.getD sIdx "") n s ++
      convertSessionsFrom cid dates (sIdx + 1) (n + s.length) ss

/-- `convert_conversation_to_mem0_format`: metadata from `.get` defaults, then
the session/turn double loop. There is no failure path: a record with no
`haystack_sessions` key yields an empty message list. -/
def convertConversation (conversation_data : ConversationData)
    (conversation_id : String) : List ConvMessage × ConvMetadata :=
  let metadata : ConvMetadata :=
    { conversation_id := conversation_id
      question_id := conversation_data.question_id.getD ""
      question_type := conversation_data.question_type.getD ""
      question_date := conversation_data.question_date.getD ""
      original_question := conversation_data.question.getD ""
      ground_truth_answer := conversation_data.answer.getD ""
      haystack_session_ids := conversation_data.haystack_session_ids.getD []
      answer_session_ids := conversation_data.answer_session_ids.getD []
      is_abstention := (conversation_data.question_id.getD "").endsWith "_abs" }
  (convertSessionsFrom conversation_id
      (conversation_data.haystack_dates.getD []) 0 0
      (conversation_data.haystack_sessions.getD []),
    metadata)

theorem convertTurns_length (cid : String) (sIdx : Nat) (sDate : String) :
    ∀ n ts, (convertTurns cid sIdx sDate n ts).length = ts.length := by
  intro n ts
  induction ts generalizing n with
  | nil => rfl
  | cons t ts ih => simp [convertTurns, ih]

theorem convertSessionsFrom_length (cid : String) (dates : List String) :
    ∀ ss sIdx n, (convertSessionsFrom cid dates sIdx n ss).length =
      (ss.map List.length).sum := by
  intro ss
  induction ss with
  | nil => intro sIdx n; rfl
  | cons s ss ih =>
    intro sIdx n
    simp [convertSessionsFrom, convertTurns_length, ih]

theorem convertTurns_proj (cid : String) (sIdx : Nat) (sDate : String) :
    ∀ n ts, (convertTurns cid sIdx sDate n ts).map
        (fun m => (m.metadata.session_index, m.content)) =
      ts.map (fun t => (sIdx, t.content.getD "")) := by
  intro n ts
  induction ts generalizing n with
  | nil => rfl
  | cons t ts ih => simp [convertTurns, mkConvMessage, ih]

theorem convertSessionsFrom_proj (cid : String) (dates : List String) :
    ∀ ss sIdx n, (convertSessionsFrom cid dates sIdx n ss).map
        (fun m => (m.metadata.session_index, m.content)) =
      ((ss.enumFrom sIdx).map
        (fun p => p.2.map (fun t => (p.1, t.content.getD "")))).flatten := by
  intro ss
  induction ss with
  | nil => intro sIdx n; rfl
  | cons s ss ih =>
    intro sIdx n
    simp only [convertSessionsFrom, List.map_append, List.enumFrom,
      List.map_cons, List.flatten_cons]
    rw [convertTurns_proj, ih]

/-- C6: the converter produces exactly one message per turn — the message
count is the sum of turn counts over the sessions — ordered by session index
and, within a session, in turn order (projecting each message to its session
index and content gives the session-by-session flattening of the input); a
conversation with 2 sessions of 3 and 5 turns converts to exactly 8
messages. -/
theorem converter_message_count_and_order (cd : ConversationData)
    (cid : String) :
    (convertConversation cd cid).1.length =
      ((cd.haystack_sessions.getD []).map List.length).sum ∧
    (convertConversation cd cid).1.map
        (fun m => (m.metadata.session_index, m.content)) =
      (((cd.haystack_sessions.getD []).enum).map
        (fun p => p.2.map (fun t => (p.1, t.content.getD "")))).flatten ∧
    (convertConversation
        { question_id := none, question_type := none, question_date := none,
          question := none, answer := none, haystack_session_ids := none,
          answer_session_ids := none,
          haystack_sessions :=
            some [List.replicate 3 ⟨none, none, none⟩,
              List.replicate 5 ⟨none, none, none⟩],
          haystack_dates := none } "c").1.length = 8 := by
  refine ⟨?_, ?_, ?_⟩
  · exact convertSessionsFrom_length cid (cd.haystack_dates.getD [])
      (cd.haystack_sessions.getD []) 0 0
  · exact convertSessionsFrom_proj cid (cd.haystack_dates.getD [])
      (cd.haystack_sessions.getD []) 0 0
  · rfl

/-- C7 counterexample: on a record whose structurally required conversation
body (`haystack_sessions`) is absent the converter does not fail — there is
no `MalformedRecord` error anywhere in the code — it returns a normal result
with an empty message list and defaulted metadata. -/
theorem converter_missing_body_returns_counterexample :
    convertConversation
        { question_id := none, question_type := none, question_date := none,
          question := none, answer := none, haystack_session_ids := none,
          answer_session_ids := none, haystack_sessions := none,
          haystack_dates := none } "c1" =
      ([],
        { conversation_id := "c1", question_id := "", question_type := "",
          question_date := "", original_question := "",
          ground_truth_answer := "", haystack_session_ids := [],
          answer_session_ids := [], is_abstention := false }) := by
  rfl

/-- C7 amended: the converter never fails on any missing field. Missing
optional fields are substituted with empty/default values, and a missing
conversation body is substituted with the empty session list — yielding an
empty message list — rather than raising a `MalformedRecord` error (the
converter is a total function with no error path). -/
theorem converter_total_with_defaults (cd : ConversationData) (cid : String) :
    (convertConversation cd cid).2.question_id = cd.question_id.getD "" ∧
    (convertConversation cd cid).2.question_type = cd.question_type.getD "" ∧
    (convertConversation cd cid).2.question_date = cd.question_date.getD "" ∧
    (convertConversation cd cid).2.original_question = cd.question.getD "" ∧
    (convertConversation cd cid).2.ground_truth_answer = cd.answer.getD "" ∧
    (convertConversation cd cid).1 =
      convertSessionsFrom cid (cd.haystack_dates.getD []) 0 0
        (cd.haystack_sessions.getD []) ∧
    (cd.haystack_sessions = none → (convertConversation cd cid).1 = []) := by
  refine ⟨rfl, rfl, rfl, rfl, rfl, rfl, ?_⟩
  intro h
  simp [convertConversation, h, convertSessionsFrom]

/-- Witness for C7's amended theorem at the record with every field absent. -/
theorem converter_total_with_defaults_witness :
    (convertConversation
        { question_id := none, question_type := none, question_date := none,
          question := none, answer := none, haystack_session_ids := none,
          answer_session_ids := none, haystack_sessions := none,
          haystack_dates := none } "c2").2.question_id = "" ∧
    (convertConversation
        { question_id := none, question_type := none, question_date := none,
          question := none, answer := none, haystack_session_ids := none,
          answer_session_ids := none, haystack_sessions := none,
          haystack_dates := none } "c2").1 = [] :=
  ⟨(converter_total_with_defaults
      { question_id := none, question_type := none, question_date := none,
        question := none, answer := none, haystack_session_ids := none,
        answer_session_ids := none, haystack_sessions := none,
        haystack_dates := none } "c2").1,
   (converter_total_with_defaults
      { question_id := none, question_type := none, question_date := none,
        question := none, answer := none, haystack_session_ids := none,
        answer_session_ids := none, haystack_sessions := none,
        haystack_dates := none } "c2").2.2.2.2.2.2 rfl⟩

/-! ## Scoring: `evals.py` `process_item` and `generate_scores.py`

The lexical metrics and the LLM judge are external scorers, passed as the
oracles `bleu`, `f1` and `judge` (argument order as at the call sites:
`calculate_bleu_scores(pred, gt)`, `calculate_metrics(pred, gt)`,
`evaluate_llm_judge(question, gt, pred)`). Scores are rationals. -/

structure RawQuestionItem where
  question : String
  answer : String
  response : String
  category : String
deriving Repr, DecidableEq

def CATEGORY_MAPPING : List (String × String) :=
  [("1", "multi-hop"), ("2", "temporal"), ("3", "open-domain"),
   ("4", "single-hop"), ("5", "adversarial")]

/-- `CATEGORY_MAPPING.get(category, f"category_{category}")`. -/
def categoryName (c : String) : String :=
  match CATEGORY_MAPPING.lookup c with
  | some n => n
  | none => "category_" ++ c

structure ScoredRecord where
  question : String
  answer : String
  response : String
  category : String
  category_name : String
  bleu_score : ℚ
  f1_score : ℚ
  llm_score : ℚ
deriving Repr, DecidableEq

/-- `process_item` body for one conversation's record list: category "5"
(adversarial) items are skipped — `continue` — before any metric is
computed; every other item is scored and appended. -/
def processItem (bleu f1 : String → String → ℚ)
    (judge : String → String → String → ℚ)
    (v : List RawQuestionItem) : List ScoredRecord :=
  v.filterMap (fun item =>
    if item.category = "5" then none
    else some
      { question := item.question
        answer := item.answer
        response := item.response
        category := item.category
        category_name := categoryName item.category
        bleu_score := bleu item.response item.answer
        f1_score := f1 item.response item.answer
        llm_score := judge item.question item.answer item.response })

/-- `generate_scores`: `df.groupby("category_name")` — the group of records a
category-mean is computed over. -/
def categoryGroup (items : List ScoredRecord) (c : String) :
    List ScoredRecord :=
  items.filter (fun r => r.category_name == c)

/-! ## Raw per-question output of the search stage

`memzero/search.py` `process_question`: builds a result dict for every QA
item of a conversation — no category filter — copying `question`, `answer`,
`category`, `evidence` and `adversarial_answer` from the item (with `.get`
defaults) and taking the response and memory data from `answer_question`
(network + LLM), modelled as the oracle. Graph-memory fields (populated only
under `is_graph`) are omitted. -/

structure QAItem where
  question : Option String
  answer : Option String
  category : Option Int
  evidence : Option (List String)
  adversarial_answer : Option String
deriving Repr, DecidableEq

structure AnswerOutcome where
  response : String
  speaker_1_memories : List String
  speaker_2_memories : List String
  speaker_1_memory_time : ℚ
  speaker_2_memory_time : ℚ
  response_time : ℚ
deriving Repr, DecidableEq

structure QuestionResult where
  question : String
  answer : String
  category : Int
  evidence : List String
  response : String
  adversarial_answer : String
  speaker_1_memories : List String
  speaker_2_memories : List String
  num_speaker_1_memories : Nat
  num_speaker_2_memories : Nat
  speaker_1_memory_time : ℚ
  speaker_2_memory_time : ℚ
  response_time : ℚ
deriving Repr, DecidableEq

def processQuestion (oracle : QAItem → AnswerOutcome) (val : QAItem) :
    QuestionResult :=
  { question := val.question.getD ""
    answer := val.answer.getD ""
    category := val.category.getD (-1)
    evidence := val.evidence.getD []
    response := (oracle val).response
    adversarial_answer := val.adversarial_answer.getD ""
    speaker_1_memories := (oracle val).speaker_1_memories
    speaker_2_memories := (oracle val).speaker_2_memories
    num_speaker_1_memories := (oracle val).speaker_1_memories.length
    num_speaker_2_memories := (oracle val).speaker_2_memories.length
    speaker_1_memory_time := (oracle val).speaker_1_memory_time
    speaker_2_memory_time := (oracle val).speaker_2_memory_time
    response_time := (oracle val).response_time }

/-- Per-conversation loop of `process_data_file`: one raw result appended per
QA item, category filter absent. -/
def conversationResults (oracle : QAItem → AnswerOutcome)
    (qa : List QAItem) : List QuestionResult :=
  qa.map (processQuestion oracle)

/-- C4: category-"5" records are dropped by `process_item` before any metric
is computed, so no category-"5" record is in any `groupby("category_name")`
group a category-mean is computed over; the raw per-question output of the
search stage keeps one record per QA item with the category preserved, so
category-"5" items are still present there. -/
theorem adversarial_excluded_from_aggregates
    (bleu f1 : String → String → ℚ) (judge : String → String → String → ℚ)
    (v : List RawQuestionItem) (oracle : QAItem → AnswerOutcome)
    (qa : List QAItem) :
    (∀ r ∈ processItem bleu f1 judge v, r.category ≠ "5") ∧
    (∀ c, ∀ r ∈ categoryGroup (processItem bleu f1 judge v) c,
      r.category ≠ "5") ∧
    (conversationResults oracle qa).length = qa.length ∧
    (conversationResults oracle qa).map (fun r => r.category) =
      qa.map (fun q => q.category.getD (-1)) := by
  have hmain : ∀ r ∈ processItem bleu f1 judge v, r.category ≠ "5" := by
    intro r hr
    rw [processItem, List.mem_filterMap] at hr
    obtain ⟨item, _, hf⟩ := hr
    by_cases h5 : item.category = "5"
    · rw [if_pos h5] at hf
      exact absurd hf (by simp)
    · rw [if_neg h5] at hf
      injection hf with hf
      rw [← hf]
      exact h5
  refine ⟨hmain, ?_, ?_, ?_⟩
  · intro c r hr
    exact hmain r (List.mem_of_mem_filter hr)
  · simp [conversationResults]
  · simp only [conversationResults, List.map_map]
    exact List.map_congr_left (fun a _ => rfl)

/-- Witness for C4: one category-"1" item scored, one category-"5" QA item
preserved in the raw output. -/
theorem adversarial_excluded_from_aggregates_witness :
    (({ question := "q", answer := "a", response := "r", category := "1",
        category_name := categoryName "1", bleu_score := 0, f1_score := 0,
        llm_score := 0 } : ScoredRecord).category ≠ "5") ∧
    (conversationResults (fun _ => ⟨"resp", [], [], 0, 0, 0⟩)
        [⟨none, none, some 5, none, none⟩]).map (fun r => r.category) =
      [(5 : Int)] :=
  ⟨(adversarial_excluded_from_aggregates (fun _ _ => 0) (fun _ _ => 0)
      (fun _ _ _ => 0) [⟨"q", "a", "r", "1"⟩] (fun _ => ⟨"resp", [], [], 0, 0, 0⟩)
      [⟨none, none, some 5, none, none⟩]).1
      { question := "q", answer := "a", response := "r", category := "1",
        category_name := categoryName "1", bleu_score := 0, f1_score := 0,
        llm_score := 0 }
      (by simp [processItem, List.filterMap]),
   (adversarial_excluded_from_aggregates (fun _ _ => 0) (fun _ _ => 0)
      (fun _ _ _ => 0) [⟨"q", "a", "r", "1"⟩] (fun _ => ⟨"resp", [], [], 0, 0, 0⟩)
      [⟨none, none, some 5, none, none⟩]).2.2.2⟩

/-! ## Result aggregator: `_save_to_disk` of `memzero/search.py`

The snapshot file is modelled by the parsed value it holds. `_save_to_disk`
opens the output path in mode "w" — truncating whatever was there — and
`json.dump`s the entire `self.results` mapping (a `defaultdict(list)` keyed
by conversation index), under the instance lock. -/

structure AggregatorState where
  results : List (Nat × List QuestionResult)
deriving Repr, DecidableEq

/-- `_save_to_disk`: the previous file contents `prev` are discarded by the
`"w"` open; the new contents are the whole current mapping. -/
def saveToDisk (_prev : List (Nat × List QuestionResult))
    (st : AggregatorState) : List (Nat × List QuestionResult) :=
  st.results

/-- `process_data_file`: per conversation, append the per-question results
under the conversation's index, then flush. The pair carries
(aggregator state, on-disk snapshot). -/
def processDataFile (oracle : QAItem → AnswerOutcome)
    (data : List (List QAItem)) :
    AggregatorState × List (Nat × List QuestionResult) :=
  data.enum.foldl
    (fun acc p =>
      let st : AggregatorState :=
        ⟨acc.1.results ++ [(p.1, conversationResults oracle p.2)]⟩
      (st, saveToDisk acc.2 st))
    (⟨[]⟩, [])

theorem processDataFile_foldl_disk (oracle : QAItem → AnswerOutcome) :
    ∀ (l : List (Nat × List QAItem))
      (acc : AggregatorState × List (Nat × List QuestionResult)),
      acc.2 = acc.1.results →
      (l.foldl
        (fun acc p =>
          let st : AggregatorState :=
            ⟨acc.1.results ++ [(p.1, conversationResults oracle p.2)]⟩
          (st, saveToDisk acc.2 st)) acc).2 =
      (l.foldl
        (fun acc p =>
          let st : AggregatorState :=
            ⟨acc.1.results ++ [(p.1, conversationResults oracle p.2)]⟩
          (st, saveToDisk acc.2 st)) acc).1.results := by
  intro l
  induction l with
  | nil => intro acc h; exact h
  | cons p l ih =>
    intro acc h
    exact ih _ rfl

/-- C8: the flush is idempotent and completely overwrites the previous
on-disk snapshot with the full current mapping — two consecutive flushes with
no intervening append write identical contents, the written contents do not
depend on what was on disk before, after any flush the file holds the entire
current mapping, and all through a `process_data_file` run the snapshot equals
the full accumulated mapping (not only the latest conversation's records). -/
theorem flush_idempotent_full_overwrite (st : AggregatorState)
    (d1 d2 : List (Nat × List QuestionResult))
    (oracle : QAItem → AnswerOutcome) (data : List (List QAItem)) :
    saveToDisk (saveToDisk d1 st) st = saveToDisk d1 st ∧
    saveToDisk d1 st = saveToDisk d2 st ∧
    saveToDisk d1 st = st.results ∧
    (processDataFile oracle data).2 = (processDataFile oracle data).1.results := by
  refine ⟨rfl, rfl, rfl, ?_⟩
  exact processDataFile_foldl_disk oracle data.enum (⟨[]⟩, []) rfl

/-! ## Two-speaker adder conversion

`memzero/add.py` `_run_tasks`, inner per-session loop: every chat turn is
rendered as `"{speaker}: {text}"` and appended to BOTH per-speaker lists — as
role "user" in the list of the speaker who uttered it (the `speaker_a`
comparison), as role "assistant" in the other list. -/

structure Chat where
  speaker : String
  text : String
deriving Repr, DecidableEq

structure SimpleMsg where
  role : String
  content : String
deriving Repr, DecidableEq

/-- Loop `for chat in chats` building `msg_a, msg_b`. -/
def buildSpeakerMessages (speaker_a : String) :
    List Chat → List SimpleMsg × List SimpleMsg
  | [] => ([], [])
  | c :: cs =>
    let rest := buildSpeakerMessages speaker_a cs
    let content := c.speaker ++ ": " ++ c.text
    if c.speaker = speaker_a then
      (⟨"user", content⟩ :: rest.1, ⟨"assistant", content⟩ :: rest.2)
    else
      (⟨"assistant", content⟩ :: rest.1, ⟨"user", content⟩ :: rest.2)

theorem buildSpeakerMessages_eq_maps (speaker_a : String) (chats : List Chat) :
    buildSpeakerMessages speaker_a chats =
      (chats.map (fun c =>
          if c.speaker = speaker_a
          then (⟨"user", c.speaker ++ ": " ++ c.text⟩ : SimpleMsg)
          else ⟨"assistant", c.speaker ++ ": " ++ c.text⟩),
       chats.map (fun c =>
          if c.speaker = speaker_a
          then (⟨"assistant", c.speaker ++ ": " ++ c.text⟩ : SimpleMsg)
          else ⟨"user", c.speaker ++ ": " ++ c.text⟩)) := by
  induction chats with
  | nil => rfl
  | cons c cs ih =>
    by_cases h : c.speaker = speaker_a <;>
      simp [buildSpeakerMessages, h, ih]

theorem buildSpeakerMessages_fst_length (speaker_a : String)
    (chats : List Chat) :
    (buildSpeakerMessages speaker_a chats).1.length = chats.length := by
  rw [buildSpeakerMessages_eq_maps]
  exact List.length_map chats _

theorem buildSpeakerMessages_snd_length (speaker_a : String)
    (chats : List Chat) :
    (buildSpeakerMessages speaker_a chats).2.length = chats.length := by
  rw [buildSpeakerMessages_eq_maps]
  exact List.length_map chats _

/-- C10: each chat turn yields exactly one message in each speaker's list (so
both lists have the session's turn count as length), both carry the content
`"{speaker}: {text}"`, and the roles are "user" in the uttering speaker's
list and "assistant" in the other (for turns attributed to either declared
speaker, the two speaker names being distinct). -/
theorem two_speaker_turn_messages (speaker_a speaker_b : String)
    (hab : speaker_b ≠ speaker_a) (chats : List Chat) :
    (buildSpeakerMessages speaker_a chats).1.length = chats.length ∧
    (buildSpeakerMessages speaker_a chats).2.length = chats.length ∧
    ∀ i : Fin chats.length,
      ((buildSpeakerMessages speaker_a chats).1.get
          ⟨i.val, by rw [buildSpeakerMessages_fst_length]; exact i.isLt⟩).content =
        (chats.get i).speaker ++ ": " ++ (chats.get i).text ∧
      ((buildSpeakerMessages speaker_a chats).2.get
          ⟨i.val, by rw [buildSpeakerMessages_snd_length]; exact i.isLt⟩).content =
        (chats.get i).speaker ++ ": " ++ (chats.get i).text ∧
      ((chats.get i).speaker = speaker_a →
        ((buildSpeakerMessages speaker_a chats).1.get
            ⟨i.val, by rw [buildSpeakerMessages_fst_length]; exact i.isLt⟩).role =
          "user" ∧
        ((buildSpeakerMessages speaker_a chats).2.get
            ⟨i.val, by rw [buildSpeakerMessages_snd_length]; exact i.isLt⟩).role =
          "assistant") ∧
      ((chats.get i).speaker = speaker_b →
        ((buildSpeakerMessages speaker_a chats).1.get
            ⟨i.val, by rw [buildSpeakerMessages_fst_length]; exact i.isLt⟩).role =
          "assistant" ∧
        ((buildSpeakerMessages speaker_a chats).2.get
            ⟨i.val, by rw [buildSpeakerMessages_snd_length]; exact i.isLt⟩).role =
          "user") := by
  refine ⟨buildSpeakerMessages_fst_length speaker_a chats,
    buildSpeakerMessages_snd_length speaker_a chats, ?_⟩
  intro i
  have hfst : ∀ (h : i.val < (buildSpeakerMessages speaker_a chats).1.length),
      (buildSpeakerMessages speaker_a chats).1.get ⟨i.val, h⟩ =
        (if (chats.get i).speaker = speaker_a
          then (⟨"user", (chats.get i).speaker ++ ": " ++ (chats.get i).text⟩ : SimpleMsg)
          else ⟨"assistant", (chats.get i).speaker ++ ": " ++ (chats.get i).text⟩) := by
    intro h
    simp only [buildSpeakerMessages_eq_maps, List.get_eq_getElem,
      List.getElem_map]
  have hsnd : ∀ (h : i.val < (buildSpeakerMessages speaker_a chats).2.length),
      (buildSpeakerMessages speaker_a chats).2.get ⟨i.val, h⟩ =
        (if (chats.get i).speaker = speaker_a
          then (⟨"assistant", (chats.get i).speaker ++ ": " ++ (chats.get i).text⟩ : SimpleMsg)
          else ⟨"user", (chats.get i).speaker ++ ": " ++ (chats.get i).text⟩) := by
    intro h
    simp only [buildSpeakerMessages_eq_maps, List.get_eq_getElem,
      List.getElem_map]
  refine ⟨?_, ?_, ?_, ?_⟩
  · rw [hfst]
    split <;> rfl
  · rw [hsnd]
    split <;> rfl
  · intro ha
    rw [hfst, hsnd]
    simp only [List.get_eq_getElem] at ha ⊢
    simp [ha]
  · intro hb
    have hna : ¬(chats.get i).speaker = speaker_a := by rw [hb]; exact hab
    rw [hfst, hsnd]
    simp only [List.get_eq_getElem] at hna ⊢
    simp [hna]

/-- Witness for C10: a two-turn session between distinct speakers. -/
theorem two_speaker_turn_messages_witness :
    (buildSpeakerMessages "alice" [⟨"alice", "hi"⟩, ⟨"bob", "yo"⟩]).1.length = 2 ∧
    (buildSpeakerMessages "alice" [⟨"alice", "hi"⟩, ⟨"bob", "yo"⟩]).2.length = 2 :=
  ⟨(two_speaker_turn_messages "alice" "bob" (by decide)
      [⟨"alice", "hi"⟩, ⟨"bob", "yo"⟩]).1,
   (two_speaker_turn_messages "alice" "bob" (by decide)
      [⟨"alice", "hi"⟩, ⟨"bob", "yo"⟩]).2.1⟩

/-! ## Admission semaphore

Both adders guard the whole body of the per-batch coroutine — including the
network call — with `async with semaphore` on one `asyncio.Semaphore(
max_concurrent)` created once per run and shared by all its submissions. The
cooperative scheduler is modelled as a transition system: a task is idle
until it acquires a permit (possible only while a permit is available),
holds the permit exactly while its network call is in flight, and releases
it when the body exits. -/

inductive TaskPhase
  | idle
  | inFlight
  | fin
deriving Repr, DecidableEq

structure SemState where
  avail : Nat
  tasks : List TaskPhase
deriving Repr, DecidableEq

/-- Interleaving semantics of `async with semaphore` around the POST. -/
inductive SemStep : SemState → SemState → Prop
  | acquire (s : SemState) (i : Nat) (hi : i < s.tasks.length)
      (hidle : s.tasks.get ⟨i, hi⟩ = TaskPhase.idle)
      (havail : 0 < s.avail) :
      SemStep s ⟨s.avail - 1, s.tasks.set i TaskPhase.inFlight⟩
  | release (s : SemState) (i : Nat) (hi : i < s.tasks.length)
      (hin : s.tasks.get ⟨i, hi⟩ = TaskPhase.inFlight) :
      SemStep s ⟨s.avail + 1, s.tasks.set i TaskPhase.fin⟩

/-- States reachable in one run: `cap = max_concurrent` permits, `n` batch
tasks all initially idle. -/
inductive SemReachable (cap n : Nat) : SemState → Prop
  | init : SemReachable cap n ⟨cap, List.replicate n TaskPhase.idle⟩
  | step {s t : SemState} :
      SemReachable cap n s → SemStep s t → SemReachable cap n t

def inFlightCount (s : SemState) : Nat :=
  s.tasks.countP (fun t => t == TaskPhase.inFlight)

theorem countP_set_incr {α : Type} {p : α → Bool} :
    ∀ (l : List α) (i : Nat) (hi : i < l.length) (a : α),
      p (l.get ⟨i, hi⟩) = false → p a = true →
      (l.set i a).countP p = l.countP p + 1 := by
  intro l
  induction l with
  | nil => intro i hi; simp at hi
  | cons x xs ih =>
    intro i hi a hfalse ha
    cases i with
    | zero =>
      simp only [List.get] at hfalse
      simp [List.set, List.countP_cons, hfalse, ha]
    | succ i =>
      simp only [List.get] at hfalse
      have hi2 : i < xs.length := by
        simp only [List.length_cons] at hi; omega
      simp only [List.set, List.countP_cons, ih i hi2 a hfalse ha]
      omega

theorem countP_set_decr {α : Type} {p : α → Bool} :
    ∀ (l : List α) (i : Nat) (hi : i < l.length) (a : α),
      p (l.get ⟨i, hi⟩) = true → p a = false →
      l.countP p = (l.set i a).countP p + 1 := by
  intro l
  induction l with
  | nil => intro i hi; simp at hi
  | cons x xs ih =>
    intro i hi a htrue ha
    cases i with
    | zero =>
      simp only [List.get] at htrue
      simp [List.set, List.countP_cons, htrue, ha]
    | succ i =>
      simp only [List.get] at htrue
      have hi2 : i < xs.length := by
        simp only [List.length_cons] at hi; omega
      simp only [List.set, List.countP_cons, ih i hi2 a htrue ha]
      omega

theorem countP_replicate_idle :
    ∀ n, (List.replicate n TaskPhase.idle).countP
      (fun t => t == TaskPhase.inFlight) = 0 := by
  intro n
  induction n with
  | zero => rfl
  | succ n ih => simp [List.replicate, List.countP_cons, ih]

theorem semaphore_invariant (cap n : Nat) :
    ∀ s, SemReachable cap n s → inFlightCount s + s.avail = cap := by
  intro s h
  induction h with
  | init => simp [inFlightCount, countP_replicate_idle]
  | @step u t hr hstep ih =>
    cases hstep with
    | acquire i hi hidle havail =>
      have hc := countP_set_incr (p := fun t => t == TaskPhase.inFlight)
        u.tasks i hi TaskPhase.inFlight (by rw [hidle]; rfl) rfl
      simp only [inFlightCount] at *
      rw [hc]
      omega
    | release i hi hin =>
      have hc := countP_set_decr (p := fun t => t == TaskPhase.inFlight)
        u.tasks i hi TaskPhase.fin (by rw [hin]; rfl) rfl
      simp only [inFlightCount] at *
      omega

/-- C9: in every state reachable during one run, the number of tasks whose
network call is in flight is at most `max_concurrent` — every network call
happens while holding one of the `cap` permits of the run's single counting
semaphore, so at most `cap` are in flight at any instant, however many tasks
are queued. -/
theorem semaphore_bounds_in_flight (cap n : Nat) (s : SemState)
    (h : SemReachable cap n s) : inFlightCount s ≤ cap := by
  have := semaphore_invariant cap n s h
  omega

/-- Witness for C9: with cap 2 and one task, the state after that task
acquired a permit is reachable and satisfies the bound. -/
theorem semaphore_bounds_in_flight_witness :
    inFlightCount ⟨1, [TaskPhase.inFlight]⟩ ≤ 2 :=
  semaphore_bounds_in_flight 2 1 ⟨1, [TaskPhase.inFlight]⟩
    (SemReachable.step SemReachable.init
      (SemStep.acquire ⟨2, List.replicate 1 TaskPhase.idle⟩ 0
        (by decide) rfl (by decide)))

end Mem0Eval
